import Mathlib

/-!
Verification of the gomusicbrainz WS2 client (`src/gomusicbrainz.go`) against its
natural-language specification.

The file shallowly embeds the Go code: pure helpers become Lean functions, the one
stateful record (`WS2Client`) is passed explicitly, Go's `error` results become
`Option GoError`, and the single network call of `getReqeust` is parametrized by its
outcome (`NetOutcome`), since the network itself is outside the program.  Entity
record types and the `ScoreMap` alias live in repository files that are not part of
`src/`; they are modelled from the spec where noted.
-/

set_option linter.unusedVariables false

/-- Go `error` values that can reach a caller of this library: the XML decode error
returned by `decoder.Decode` (spec kind `DecodeFailure`), the `*url.Error` returned by
`net/url.Parse` (spec kind `InvalidRootAddress`), and a transport-failure value (spec
kind `TransportFailure`) that exists in the spec's taxonomy but, as proved below, is
never returned by the code. -/
inductive GoError where
  | decodeError (msg : String)
  | parseError (op : String) (rawURL : String) (msg : String)
  | transportError (msg : String)
deriving DecidableEq

/-- Model of Go's `net/url.URL` (external standard library).  The parsed structure is
never inspected by the code under verification (only re-serialized as the request
prefix), so the URL is kept as its raw string. -/
structure URL where
  raw : String
deriving DecidableEq

/-- True when the string contains an ASCII control byte, mirroring
`net/url.stringContainsCTLByte` (bytes below 0x20 and byte 0x7F). -/
def containsCTLByte (s : String) : Bool :=
  s.data.any (fun c => Nat.blt c.toNat 32 || c.toNat == 127)

/-- Model of Go's `net/url.Parse` (external standard library): Parse rejects a raw URL
containing an ASCII control character with the error modelled here; the other, rarer
failure modes (malformed percent-encoding, invalid port, ...) are not modelled, and a
control-character-free input parses to the URL kept abstract as its raw string. -/
def urlParse (s : String) : Except GoError URL :=
  if containsCTLByte s then
    Except.error (GoError.parseError "parse" s "net/url: invalid control character in URL")
  else
    Except.ok { raw := s }

/-- `WS2Client` from the source: the API root URL (a `*url.URL`, hence `Option` --
Go's nil pointer is `none`) and the user-agent header string. -/
structure WS2Client where
  WS2RootURL : Option URL
  userAgentHeader : String
deriving DecidableEq

/-- `NewWS2Client` from the source: the parse error of the root URL is discarded
(`c.WS2RootURL, _ = url.Parse(rooturl)`), and the user-agent header is built by the
literal concatenation of the source, including its trailing blank. -/
def NewWS2Client (rooturl appname version contact : String) : WS2Client :=
  { WS2RootURL := (urlParse rooturl).toOption
    userAgentHeader := appname ++ "/" ++ version ++ " ( " ++ contact ++ " ) " }

/-- `SetRootURL` from the source.  The Go multiple assignment
`c.WS2RootURL, err = url.Parse(rooturl)` stores the returned pointer unconditionally,
so a failed parse stores the nil pointer; the parse error is returned. -/
def SetRootURL (c : WS2Client) (rooturl : String) : WS2Client × Option GoError :=
  match urlParse rooturl with
  | Except.ok u => ({ c with WS2RootURL := some u }, none)
  | Except.error e => ({ c with WS2RootURL := none }, some e)

/-- `SetClientInfo` from the source: rebuilds the user-agent header (same literal
concatenation as `NewWS2Client`, trailing blank included); it returns nothing, so it
is modelled as a total function on the client. -/
def SetClientInfo (c : WS2Client) (application version contact : String) : WS2Client :=
  { c with userAgentHeader := application ++ "/" ++ version ++ " ( " ++ contact ++ " ) " }

/-- The decimal digit characters used by Go's `strconv` (external standard library). -/
def digitChar (d : Nat) : Char :=
  if d = 0 then '0' else if d = 1 then '1' else if d = 2 then '2' else if d = 3 then '3'
  else if d = 4 then '4' else if d = 5 then '5' else if d = 6 then '6' else if d = 7 then '7'
  else if d = 8 then '8' else '9'

/-- Decimal digits, most significant first, with explicit fuel so the definition is
structurally recursive (and hence evaluates inside the kernel).  The fuel only needs
to exceed the number of digits. -/
def natDigitsGo : Nat → Nat → List Char
  | 0, _ => []
  | fuel + 1, n =>
      if n < 10 then [digitChar n]
      else natDigitsGo fuel (n / 10) ++ [digitChar (n % 10)]

/-- Decimal digits of a natural number, most significant first; `n + 1` units of fuel
always suffice since the argument shrinks by a factor of ten per digit. -/
def natDigits (n : Nat) : List Char :=
  natDigitsGo (n + 1) n

/-- Model of Go's `strconv.Itoa` (external standard library): the decimal string of an
integer, with a leading minus sign for negative values. -/
def itoa : Int → String
  | Int.ofNat n => { data := natDigits n }
  | Int.negSucc n => { data := '-' :: natDigits (n + 1) }

/-- `intParamToString` from the source: the empty string for `-1`, otherwise
`strconv.Itoa`. -/
def intParamToString (i : Int) : String :=
  if i = -1 then "" else itoa i

/-- UTF-8 encoding of one character, the byte values as naturals; matches Go's string
byte representation for every Unicode scalar value. -/
def utf8Bytes (c : Char) : List Nat :=
  let n := c.toNat
  if n < 128 then [n]
  else if n < 2048 then [192 + n / 64, 128 + n % 64]
  else if n < 65536 then [224 + n / 4096, 128 + n / 64 % 64, 128 + n % 64]
  else [240 + n / 262144, 128 + n / 4096 % 64, 128 + n / 64 % 64, 128 + n % 64]

/-- The bytes of a Go string (UTF-8). -/
def stringUTF8 (s : String) : List Nat :=
  s.data.flatMap utf8Bytes

/-- Mirrors Go's `net/url.shouldEscape` in query-component mode (external standard
library): only ASCII alphanumerics and `-`, `_`, `.`, `~` stay unescaped. -/
def shouldEscapeQuery (b : Nat) : Bool :=
  !(  (Nat.ble 65 b && Nat.ble b 90) || (Nat.ble 97 b && Nat.ble b 122)
   || (Nat.ble 48 b && Nat.ble b 57) || b == 45 || b == 95 || b == 46 || b == 126)

/-- Upper-case hexadecimal digit, as in Go's `net/url` escaping table. -/
def upperHexDigit (n : Nat) : Char :=
  if n = 0 then '0' else if n = 1 then '1' else if n = 2 then '2' else if n = 3 then '3'
  else if n = 4 then '4' else if n = 5 then '5' else if n = 6 then '6' else if n = 7 then '7'
  else if n = 8 then '8' else if n = 9 then '9' else if n = 10 then 'A' else if n = 11 then 'B'
  else if n = 12 then 'C' else if n = 13 then 'D' else if n = 14 then 'E' else 'F'

/-- Escaping of one byte in query-component mode: space becomes `+`, escaped bytes
become `%XX`, anything else is kept (such bytes are always ASCII). -/
def escapeByte (b : Nat) : List Char :=
  if b = 32 then ['+']
  else if shouldEscapeQuery b then ['%', upperHexDigit (b / 16), upperHexDigit (b % 16)]
  else [Char.ofNat b]

/-- Model of Go's `net/url.QueryEscape` (external standard library): escape every
UTF-8 byte of the string in query-component mode. -/
def queryEscape (s : String) : String :=
  { data := (stringUTF8 s).flatMap escapeByte }

/-- Byte-wise (here: character-wise, identical on the ASCII keys that occur)
less-or-equal on strings, as used by Go's `sort.Strings` inside `url.Values.Encode`. -/
def charListLe : List Char → List Char → Bool
  | [], _ => true
  | _ :: _, [] => false
  | a :: as, b :: bs =>
      if Nat.blt a.toNat b.toNat then true
      else if Nat.blt b.toNat a.toNat then false
      else charListLe as bs

/-- Insert one key/values pair into a key-sorted list of pairs. -/
def insertSorted (p : String × List String) :
    List (String × List String) → List (String × List String)
  | [] => [p]
  | q :: qs => if charListLe p.1.data q.1.data then p :: q :: qs else q :: insertSorted p qs

/-- Sort an association list by key, modelling the `sort.Strings(keys)` step of
`url.Values.Encode`. -/
def sortByKey (v : List (String × List String)) : List (String × List String) :=
  v.foldr insertSorted []

/-- Join with `&` separators, modelling the buffer loop of `url.Values.Encode` (an
ampersand before every emission except the first). -/
def joinAmp : List String → String
  | [] => ""
  | x :: xs => xs.foldl (fun acc y => acc ++ "&" ++ y) x

/-- Model of Go's `url.Values.Encode` (external standard library): keys in sorted
order, each value emitted as `key=value` with both sides query-escaped. -/
def urlValuesEncode (v : List (String × List String)) : String :=
  joinAmp ((sortByKey v).flatMap
    (fun kv => kv.2.map (fun x => queryEscape kv.1 ++ "=" ++ queryEscape x)))

/-- The `url.Values` literal built by `searchRequest` in the source: keys `query`,
`limit`, `offset`, each with a single value. -/
def searchRequestValues (searchTerm : String) (limit offset : Int) :
    List (String × List String) :=
  [("query", [searchTerm]), ("limit", [intParamToString limit]),
   ("offset", [intParamToString offset])]

/-- The encoded query string `params.Encode()` that `getReqeust` appends after `?` to
the request URL, for the parameters built by `searchRequest`. -/
def searchParamsEncode (searchTerm : String) (limit offset : Int) : String :=
  urlValuesEncode (searchRequestValues searchTerm limit offset)

/-- Substring test on strings, used to state whether a parameter occurs in an encoded
query string. -/
def containsSub (s pat : String) : Bool :=
  s.data.tails.any (fun t => pat.data.isPrefixOf t)

/-- A parameter named `key` occurs in the encoded query string when `key=` occurs as a
substring. -/
def containsParam (encoded key : String) : Bool :=
  containsSub encoded (key ++ "=")

/-- Pagination header shared by all list results (`WS2ListResponse` in the
repository, declared outside `src/`).  Modelled from the spec: a count and an
offset. -/
structure WS2ListResponse where
  count : Int
  offset : Int
deriving DecidableEq

/-- One scored child element of a list payload, generic over the entity kind: the
decoded entity value together with its relevance score (the source fields `v.Artist`
or `v.Area` together with `v.Score`). -/
structure ScoredEntity (E : Type) where
  entity : E
  score : Int
deriving DecidableEq

/-- The decoded list element of a search payload, generic over the entity kind (the
source values `result.ArtistList`, `result.AreaList`, ...): the pagination header and
the ordered sequence of scored entries.  The outer `...ListResult` struct of the
source only wraps this value and is not modelled separately. -/
structure ListWrapper (E : Type) where
  header : WS2ListResponse
  entries : List (ScoredEntity E)
deriving DecidableEq

/-- Modelled from the spec: `ScoreMap` (declared outside `src/`) maps entity values to
relevance scores.  A Go map is modelled as an association list with unique keys;
`scoreMapInsert` is the Go assignment `m[k] = v`. -/
abbrev ScoreMap (E : Type) : Type :=
  List (E × Int)

/-- Go map assignment `m[k] = v`: replace the binding of an existing key, otherwise
add a new binding. -/
def scoreMapInsert [DecidableEq E] (m : ScoreMap E) (k : E) (v : Int) : ScoreMap E :=
  match m with
  | [] => [(k, v)]
  | p :: ps => if p.1 = k then (k, v) :: ps else p :: scoreMapInsert ps k v

/-- Go map read `m[k]` (as an option; absent keys read the zero value in Go). -/
def scoreMapLookup [DecidableEq E] (m : ScoreMap E) (k : E) : Option Int :=
  match m with
  | [] => none
  | p :: ps => if p.1 = k then some p.2 else scoreMapLookup ps k

/-- The keys of a score map. -/
def scoreMapKeys (m : ScoreMap E) : List E :=
  m.map Prod.fst

/-- The size `len(m)` of a score map. -/
def scoreMapSize (m : ScoreMap E) : Nat :=
  m.length

/-- One iteration of the flattening loop of every implemented search method
(`SearchArtist` and its siblings):

    rsp.Artists = append(rsp.Artists, v.Artist)
    rsp.Scores[rsp.Artists[i]] = v.Score

`rsp.Artists[i]` indexes the element just appended (the range index `i` equals the
length of `rsp.Artists` before the append), so the inserted key is `v.entity`. -/
def flattenStep [DecidableEq E] (acc : List E × ScoreMap E) (v : ScoredEntity E) :
    List E × ScoreMap E :=
  (acc.1 ++ [v.entity], scoreMapInsert acc.2 v.entity v.score)

/-- The whole flattening loop, run from the empty sequence and the empty map
(`rsp.Scores = make(ScoreMap)`). -/
def flattenEntries [DecidableEq E] (entries : List (ScoredEntity E)) :
    List E × ScoreMap E :=
  entries.foldl flattenStep ([], [])

/-- The public search response, generic over the entity kind: the copied pagination
header, the ordered entity sequence (`rsp.Artists`, ...), and the score map. -/
structure SearchResponse (E : Type) where
  WS2ListResponse : WS2ListResponse
  entities : List E
  Scores : ScoreMap E
deriving DecidableEq

/-- The response built by every implemented search method from its decoded list
wrapper: header copied, then the flattening loop. -/
def searchResponseOf [DecidableEq E] (result : ListWrapper E) : SearchResponse E :=
  { WS2ListResponse := result.header
    entities := (flattenEntries result.entries).1
    Scores := (flattenEntries result.entries).2 }

/-- Outcome of the one network call inside `getReqeust`, the program's sole
interaction with the outside world: either `client.Do` fails, or a response body
arrives and `decoder.Decode` leaves `result` holding `decoded` and returns
`decodeErr` (`none` on a clean decode; on failure Go leaves in `result` whatever was
filled before the error). -/
inductive NetOutcome (E : Type) where
  | transportFailure (msg : String)
  | response (decoded : ListWrapper E) (decodeErr : Option String)

/-- Result of running a Go function that may call `log.Fatalln`: either the process
aborted (`log.Fatalln` prints and exits, nothing is returned to the caller), or the
function returned a value. -/
inductive GoCall (B : Type) where
  | fatal (msg : String)
  | ret (value : B)
deriving DecidableEq

/-- `getReqeust` from the source, parametrized by the network outcome: a failing
`client.Do` hits `log.Fatalln(err)` and the process aborts; otherwise the body is
decoded into `result` and the decode error (if any) is returned verbatim. -/
def getReqeust (outcome : NetOutcome E) : GoCall (ListWrapper E × Option GoError) :=
  match outcome with
  | NetOutcome.transportFailure msg => GoCall.fatal msg
  | NetOutcome.response decoded decodeErr =>
      GoCall.ret (decoded, decodeErr.map GoError.decodeError)

/-- The body shared by all nine implemented search methods (`SearchAnnotation`,
`SearchArea`, `SearchArtist`, `SearchRelease`, `SearchReleaseGroup`, `SearchTag`,
`SearchCDStub`, `SearchLabel`, `SearchPlace`), generic over the entity kind: call
`searchRequest`/`getReqeust`, then build the response from the decoded wrapper
regardless of the error, and return the response pointer (always the address of the
local `rsp`, hence never nil) together with the error. -/
def searchMethod [DecidableEq E] (outcome : NetOutcome E) :
    GoCall (Option (SearchResponse E) × Option GoError) :=
  match getReqeust outcome with
  | GoCall.fatal msg => GoCall.fatal msg
  | GoCall.ret (decoded, err) => GoCall.ret (some (searchResponseOf decoded), err)

/-- Modelled from the spec: the Artist entity kind.  Its record type is declared
outside `src/`; the spec only requires entities to be comparable values, so two
representative fields suffice. -/
structure Artist where
  id : String
  name : String
deriving DecidableEq

/-- Modelled from the spec: the Area entity kind (declared outside `src/`). -/
structure Area where
  id : String
  name : String
deriving DecidableEq

/-- `SearchArtist` from the source. -/
def SearchArtist (outcome : NetOutcome Artist) :
    GoCall (Option (SearchResponse Artist) × Option GoError) :=
  searchMethod outcome

/-- `SearchArea` from the source. -/
def SearchArea (outcome : NetOutcome Area) :
    GoCall (Option (SearchResponse Area) × Option GoError) :=
  searchMethod outcome

/-- Modelled from the spec: the Freedb entity kind, one of the three
declared-but-unimplemented search operations (declared outside `src/`). -/
structure Freedb where
  id : String
deriving DecidableEq

/-- Modelled from the spec: the Recording entity kind (declared outside `src/`). -/
structure Recording where
  id : String
deriving DecidableEq

/-- Modelled from the spec: the Work entity kind (declared outside `src/`). -/
structure Work where
  id : String
deriving DecidableEq

/-- `SearchFreedb` from the source: `return nil, nil`. -/
def SearchFreedb (searchTerm : String) (limit offset : Int) :
    Option (SearchResponse Freedb) × Option GoError :=
  (none, none)

/-- `SearchRecording` from the source: `return nil, nil`. -/
def SearchRecording (searchTerm : String) (limit offset : Int) :
    Option (SearchResponse Recording) × Option GoError :=
  (none, none)

/-- `SearchWork` from the source: `return nil, nil`. -/
def SearchWork (searchTerm : String) (limit offset : Int) :
    Option (SearchResponse Work) × Option GoError :=
  (none, none)

/-- Folding the map half of the flattening loop alone: insert every scored entry of
the list, in order, into a score map. -/
def insertAll [DecidableEq E] (m : ScoreMap E) (entries : List (ScoredEntity E)) :
    ScoreMap E :=
  entries.foldl (fun acc v => scoreMapInsert acc v.entity v.score) m

/-- Membership in the keys of a map after one Go map assignment. -/
theorem mem_scoreMapKeys_insert [DecidableEq E] (m : ScoreMap E) (k : E) (v : Int)
    (a : E) : a ∈ scoreMapKeys (scoreMapInsert m k v) ↔ a = k ∨ a ∈ scoreMapKeys m := by
  induction m with
  | nil => simp [scoreMapInsert, scoreMapKeys]
  | cons p ps ih =>
      by_cases h : p.1 = k
      · subst h
        simp [scoreMapInsert, scoreMapKeys]
      · simp only [scoreMapInsert, if_neg h, scoreMapKeys, List.map_cons, List.mem_cons]
        rw [show (a ∈ List.map Prod.fst (scoreMapInsert ps k v)) =
              (a ∈ scoreMapKeys (scoreMapInsert ps k v)) from rfl, ih]
        simp [scoreMapKeys]
        tauto

/-- Size of a map after one Go map assignment: unchanged when the key was present,
one more binding when it was new. -/
theorem scoreMapInsert_length [DecidableEq E] (m : ScoreMap E) (k : E) (v : Int) :
    (scoreMapInsert m k v).length =
      if k ∈ scoreMapKeys m then m.length else m.length + 1 := by
  induction m with
  | nil => simp [scoreMapInsert, scoreMapKeys]
  | cons p ps ih =>
      by_cases h : p.1 = k
      · subst h
        simp [scoreMapInsert, scoreMapKeys]
      · simp only [scoreMapInsert, if_neg h, List.length_cons, ih, scoreMapKeys,
          List.map_cons, List.mem_cons]
        by_cases hm : k ∈ List.map Prod.fst ps
        · simp [scoreMapKeys, hm]
        · simp [scoreMapKeys, hm, Ne.symm h]

/-- Reading back the key just assigned. -/
theorem scoreMapLookup_insert_self [DecidableEq E] (m : ScoreMap E) (k : E) (v : Int) :
    scoreMapLookup (scoreMapInsert m k v) k = some v := by
  induction m with
  | nil => simp [scoreMapInsert, scoreMapLookup]
  | cons p ps ih =>
      by_cases h : p.1 = k
      · subst h
        simp [scoreMapInsert, scoreMapLookup]
      · simp [scoreMapInsert, scoreMapLookup, h, ih]

/-- A Go map assignment leaves every other key unchanged. -/
theorem scoreMapLookup_insert_ne [DecidableEq E] (m : ScoreMap E) (k : E) (v : Int)
    (a : E) (h : a ≠ k) :
    scoreMapLookup (scoreMapInsert m k v) a = scoreMapLookup m a := by
  induction m with
  | nil => simp [scoreMapInsert, scoreMapLookup, Ne.symm h]
  | cons p ps ih =>
      by_cases hp : p.1 = k
      · subst hp
        simp [scoreMapInsert, scoreMapLookup, Ne.symm h]
      · by_cases hpa : p.1 = a
        · simp [scoreMapInsert, scoreMapLookup, hp, hpa, h]
        · simp [scoreMapInsert, scoreMapLookup, hp, hpa, ih]

/-- The flattening fold splits into its two components: the appended entity sequence
and the folded map insertions. -/
theorem foldl_flattenStep [DecidableEq E] (entries : List (ScoredEntity E)) :
    ∀ acc : List E × ScoreMap E,
      entries.foldl flattenStep acc =
        (acc.1 ++ entries.map (fun v => v.entity), insertAll acc.2 entries) := by
  induction entries with
  | nil => intro acc; simp [insertAll]
  | cons v es ih =>
      intro acc
      rw [List.foldl_cons, ih]
      simp [flattenStep, insertAll]

/-- The flattening loop yields the mapped entity sequence and the map of all
insertions. -/
theorem flattenEntries_eq [DecidableEq E] (entries : List (ScoredEntity E)) :
    flattenEntries entries = (entries.map (fun v => v.entity), insertAll [] entries) := by
  rw [flattenEntries, foldl_flattenStep]
  rfl

/-- Peeling the last insertion off `insertAll`. -/
theorem insertAll_append_singleton [DecidableEq E] (m : ScoreMap E)
    (es : List (ScoredEntity E)) (v : ScoredEntity E) :
    insertAll m (es ++ [v]) = scoreMapInsert (insertAll m es) v.entity v.score := by
  simp [insertAll, List.foldl_append]

/-- The keys present after inserting a whole entry list. -/
theorem mem_scoreMapKeys_insertAll [DecidableEq E] (entries : List (ScoredEntity E)) :
    ∀ (m : ScoreMap E) (a : E),
      a ∈ scoreMapKeys (insertAll m entries) ↔
        a ∈ entries.map (fun v => v.entity) ∨ a ∈ scoreMapKeys m := by
  induction entries with
  | nil => intro m a; simp [insertAll]
  | cons v es ih =>
      intro m a
      rw [show insertAll m (v :: es) = insertAll (scoreMapInsert m v.entity v.score) es
            from rfl,
          ih, mem_scoreMapKeys_insert]
      simp only [List.map_cons, List.mem_cons]
      tauto

/-- Size of the map built by the flattening loop: one binding per distinct entity. -/
theorem scoreMapSize_insertAll_nil [DecidableEq E] (entries : List (ScoredEntity E)) :
    (insertAll ([] : ScoreMap E) entries).length =
      (entries.map (fun v => v.entity)).toFinset.card := by
  induction entries using List.reverseRecOn with
  | nil => simp [insertAll]
  | append_singleton es v ih =>
      rw [insertAll_append_singleton, scoreMapInsert_length, ih]
      have hkeys : v.entity ∈ scoreMapKeys (insertAll ([] : ScoreMap E) es) ↔
          v.entity ∈ es.map (fun u => u.entity) := by
        rw [mem_scoreMapKeys_insertAll]
        simp [scoreMapKeys]
      have hsplit : ((es ++ [v]).map (fun u => u.entity)).toFinset =
          insert v.entity (es.map (fun u => u.entity)).toFinset := by
        ext x
        simp [or_comm]
      by_cases hm : v.entity ∈ es.map (fun u => u.entity)
      · rw [if_pos (hkeys.mpr hm), hsplit,
          Finset.insert_eq_self.mpr (List.mem_toFinset.mpr hm)]
      · rw [if_neg (fun hinsert => hm (hkeys.mp hinsert)), hsplit,
          Finset.card_insert_of_not_mem (fun hf => hm (List.mem_toFinset.mp hf))]

/-- Looking a key up in the map built by `insertAll`: the score of the last inserted
entry carrying that key wins, otherwise the initial map answers. -/
theorem scoreMapLookup_insertAll [DecidableEq E] (entries : List (ScoredEntity E)) :
    ∀ (m : ScoreMap E) (a : E),
      scoreMapLookup (insertAll m entries) a =
        match entries.reverse.find? (fun v => v.entity == a) with
        | some v => some v.score
        | none => scoreMapLookup m a := by
  induction entries with
  | nil => intro m a; simp [insertAll]
  | cons v es ih =>
      intro m a
      rw [show insertAll m (v :: es) = insertAll (scoreMapInsert m v.entity v.score) es
            from rfl,
          ih, List.reverse_cons, List.find?_append]
      cases h : es.reverse.find? (fun u => u.entity == a) with
      | some u => simp
      | none =>
          simp only [Option.none_or]
          by_cases hva : v.entity = a
          · subst hva
            simp [List.find?, scoreMapLookup_insert_self]
          · have hb : (v.entity == a) = false := by simp [hva]
            simp [List.find?, hb, scoreMapLookup_insert_ne _ _ _ _ (Ne.symm hva)]

/-- Looking a key up in the score map built by the flattening loop gives the score of
the last entry with that entity (or nothing when the entity never occurs). -/
theorem scoreMapLookup_flatten [DecidableEq E] (entries : List (ScoredEntity E)) (a : E) :
    scoreMapLookup (flattenEntries entries).2 a =
      (entries.reverse.find? (fun v => v.entity == a)).map (fun v => v.score) := by
  rw [flattenEntries_eq, scoreMapLookup_insertAll]
  cases h : entries.reverse.find? (fun v => v.entity == a) <;> simp [scoreMapLookup]

/-- In a list where the predicate has exactly one hit, `find?` returns that hit. -/
theorem find?_eq_of_countP_eq_one {A : Type} {p : A → Bool} (l : List A) (v : A)
    (h1 : l.countP p = 1) (hv : v ∈ l) (hp : p v = true) :
    l.find? p = some v := by
  induction l with
  | nil => cases hv
  | cons u us ih =>
      by_cases hu : p u = true
      · rw [List.find?_cons_of_pos _ hu]
        rcases List.mem_cons.mp hv with rfl | hvus
        · rfl
        · exfalso
          have hpos : 0 < us.countP p := List.countP_pos_iff.mpr ⟨v, hvus, hp⟩
          rw [List.countP_cons_of_pos _ _ hu] at h1
          omega
      · rw [List.find?_cons_of_neg _ (fun hcontra => hu hcontra)]
        rcases List.mem_cons.mp hv with rfl | hvus
        · exact absurd hp hu
        · exact ih (by rwa [List.countP_cons_of_neg _ _ (fun hc => hu hc)] at h1) hvus

/-- Every character produced by `digitChar` is an ASCII decimal digit. -/
theorem digitChar_bounds (d : Nat) :
    48 ≤ (digitChar d).toNat ∧ (digitChar d).toNat ≤ 57 := by
  unfold digitChar
  repeat' split
  all_goals decide

/-- Every character produced by `natDigitsGo` is an ASCII decimal digit. -/
theorem natDigitsGo_mem (fuel : Nat) :
    ∀ (n : Nat), ∀ c ∈ natDigitsGo fuel n, 48 ≤ c.toNat ∧ c.toNat ≤ 57 := by
  induction fuel with
  | zero => intro n c hc; cases hc
  | succ fuel ih =>
      intro n c hc
      rw [natDigitsGo] at hc
      by_cases h : n < 10
      · rw [if_pos h, List.mem_singleton] at hc
        subst hc
        exact digitChar_bounds n
      · rw [if_neg h] at hc
        rcases List.mem_append.mp hc with h1 | h2
        · exact ih (n / 10) c h1
        · rw [List.mem_singleton] at h2
          subst h2
          exact digitChar_bounds (n % 10)

/-- ASCII decimal digits are never escaped in query-component mode. -/
theorem shouldEscapeQuery_digit (b : Nat) (h1 : 48 ≤ b) (h2 : b ≤ 57) :
    shouldEscapeQuery b = false := by
  simp only [shouldEscapeQuery, Bool.not_eq_false', Bool.or_eq_true, Bool.and_eq_true,
    Nat.ble_eq, beq_iff_eq]
  omega

/-- Every character of a `strconv.Itoa` result (digits, possibly a leading minus) is
an unescaped ASCII character in query-component mode. -/
theorem itoa_chars (i : Int) :
    ∀ c ∈ (itoa i).data, c.toNat < 128 ∧ c.toNat ≠ 32 ∧ shouldEscapeQuery c.toNat = false := by
  cases i with
  | ofNat n =>
      intro c hc
      have hd := natDigitsGo_mem (n + 1) n c hc
      exact ⟨by omega, by omega, shouldEscapeQuery_digit _ hd.1 hd.2⟩
  | negSucc n =>
      intro c hc
      rcases List.mem_cons.mp hc with rfl | h
      · refine ⟨by decide, by decide, by decide⟩
      · have hd := natDigitsGo_mem (n + 1 + 1) (n + 1) c h
        exact ⟨by omega, by omega, shouldEscapeQuery_digit _ hd.1 hd.2⟩

/-- Escaping the UTF-8 bytes of a list of unescaped ASCII characters reproduces the
list. -/
theorem flatMap_escape_eq_self (l : List Char)
    (h : ∀ c ∈ l, c.toNat < 128 ∧ c.toNat ≠ 32 ∧ shouldEscapeQuery c.toNat = false) :
    (l.flatMap utf8Bytes).flatMap escapeByte = l := by
  induction l with
  | nil => rfl
  | cons c cs ih =>
      obtain ⟨h1, h2, h3⟩ := h c (List.mem_cons_self c cs)
      rw [List.flatMap_cons, List.flatMap_append,
        show utf8Bytes c = [c.toNat] from by simp [utf8Bytes, h1],
        show ([c.toNat].flatMap escapeByte) = [Char.ofNat c.toNat] from by
          simp [escapeByte, h2, h3],
        Char.ofNat_toNat, ih (fun x hx => h x (List.mem_cons_of_mem _ hx)),
        List.singleton_append]

/-- `QueryEscape` is the identity on strings of unescaped ASCII characters. -/
theorem queryEscape_eq_self (s : String)
    (h : ∀ c ∈ s.data, c.toNat < 128 ∧ c.toNat ≠ 32 ∧ shouldEscapeQuery c.toNat = false) :
    queryEscape s = s := by
  cases s with
  | mk data =>
      simp only [queryEscape, stringUTF8]
      exact congrArg String.mk (flatMap_escape_eq_self data h)

/-- `QueryEscape` is the identity on decimal strings. -/
theorem queryEscape_itoa (i : Int) : queryEscape (itoa i) = itoa i :=
  queryEscape_eq_self _ (itoa_chars i)

/-- Escaped form of the `limit`/`offset` parameter value: empty for `-1`, the decimal
string otherwise. -/
theorem queryEscape_intParam (i : Int) :
    queryEscape (intParamToString i) = if i = -1 then "" else itoa i := by
  by_cases h : i = -1
  · simp only [intParamToString, if_pos h]
    rfl
  · simp only [intParamToString, if_neg h, queryEscape_itoa]

/-- The concrete key sort inside `url.Values.Encode` for the three parameters built
by `searchRequest`. -/
theorem sortByKey_searchValues (q l o : List String) :
    sortByKey [("query", q), ("limit", l), ("offset", o)] =
      [("limit", l), ("offset", o), ("query", q)] := rfl

/-- Folding the separator into the literal `offset=` key. -/
theorem append_amp_offset (w : String) : "&" ++ ("offset=" ++ w) = "&offset=" ++ w := by
  rw [← String.append_assoc, show ("&" ++ "offset=" : String) = "&offset=" from rfl]

/-- Folding the separator into the literal `query=` key. -/
theorem append_amp_query (w : String) : "&" ++ ("query=" ++ w) = "&query=" ++ w := by
  rw [← String.append_assoc, show ("&" ++ "query=" : String) = "&query=" from rfl]

/-- C1, counterexample: calling a search method with limit `-1` (here
`searchTerm = "Nirvana"`, `limit = offset = -1`) does NOT omit the `limit` parameter
from the encoded query string -- the encoding is `limit=&offset=&query=Nirvana`, so
the parameter is present with an empty value, refuting the claimed omission. -/
theorem C1_counterexample :
    ¬ (containsParam (searchParamsEncode "Nirvana" (-1) (-1)) "limit" = false) := by
  decide

/-- C1 (amended): for every search call the encoded query string is exactly
`limit=<v>&offset=<v>&query=<escaped term>` where a limit/offset of `-1` contributes
an empty value (the parameter name still appears, followed by `=`), and every other
integer value contributes its decimal string. -/
theorem C1_theorem (searchTerm : String) (limit offset : Int) :
    searchParamsEncode searchTerm limit offset =
      "limit=" ++ (if limit = -1 then "" else itoa limit) ++ "&offset=" ++
      (if offset = -1 then "" else itoa offset) ++ "&query=" ++ queryEscape searchTerm := by
  rw [searchParamsEncode, searchRequestValues, urlValuesEncode, sortByKey_searchValues]
  simp only [List.flatMap_cons, List.flatMap_nil, List.map_cons, List.map_nil,
    List.append_nil, List.nil_append]
  simp only [joinAmp, List.foldl_cons, List.foldl_nil]
  rw [queryEscape_intParam limit, queryEscape_intParam offset]
  rw [show queryEscape "limit" = "limit" from rfl, show queryEscape "offset" = "offset" from rfl,
    show queryEscape "query" = "query" from rfl]
  simp [String.append_assoc, append_amp_offset, append_amp_query]

/-- C2, counterexample: a decode failure (here an empty wrapper decoded so far and the
decoder error `XML syntax error`) does NOT make `SearchArtist` return a nil response
pointer alongside the error -- the method still returns the address of its local
response, refuting the claimed nil pointer. -/
theorem C2_counterexample :
    ¬ (searchMethod
        (NetOutcome.response (ListWrapper.mk (WS2ListResponse.mk 0 0) []) (some "XML syntax error")) =
       GoCall.ret ((none : Option (SearchResponse Artist)),
         some (GoError.decodeError "XML syntax error"))) := by
  decide

/-- C2 (amended): when the response body cannot be decoded, every implemented search
method returns the decode error together with a NON-nil response pointer, pointing at
the response flattened from whatever the decoder had already filled in (the zero-value
response when nothing was decoded). -/
theorem C2_theorem (E : Type) [DecidableEq E] (decoded : ListWrapper E) (msg : String) :
    ∃ rsp, searchMethod (NetOutcome.response decoded (some msg)) =
      GoCall.ret (some rsp, some (GoError.decodeError msg)) :=
  ⟨searchResponseOf decoded, rfl⟩

/-- C3, counterexample: calling `SetRootURL` with an unparsable address (a control
character) on a client whose root URL was `https://musicbrainz.org/ws/2` does NOT
leave that URL unchanged -- it is overwritten with the nil pointer -- refuting the
claimed error-and-unchanged behavior. -/
theorem C3_counterexample :
    ¬ (((SetRootURL
          (WS2Client.mk (some (URL.mk "https://musicbrainz.org/ws/2")) "app/1.0 ( c ) ")
          "\x01").2 ≠ none ∧
        (SetRootURL
          (WS2Client.mk (some (URL.mk "https://musicbrainz.org/ws/2")) "app/1.0 ( c ) ")
          "\x01").1.WS2RootURL = some (URL.mk "https://musicbrainz.org/ws/2"))) := by
  decide

/-- C3 (amended): when the new root address fails to parse, `SetRootURL` returns the
parse error, but the previously configured base URL is NOT preserved: the client's
root URL is overwritten with the nil pointer. -/
theorem C3_theorem (c : WS2Client) (s : String) (e : GoError)
    (h : urlParse s = Except.error e) :
    (SetRootURL c s).2 = some e ∧ (SetRootURL c s).1.WS2RootURL = none := by
  simp [SetRootURL, h]

/-- C3, witness: the amended behavior at a concrete client and the concrete
control-character address. -/
theorem C3_witness :
    urlParse "\x01" = Except.error
      (GoError.parseError "parse" "\x01" "net/url: invalid control character in URL") ∧
    ((SetRootURL (WS2Client.mk (some (URL.mk "https://musicbrainz.org/ws/2")) "ua") "\x01").2 =
        some (GoError.parseError "parse" "\x01" "net/url: invalid control character in URL") ∧
      (SetRootURL (WS2Client.mk (some (URL.mk "https://musicbrainz.org/ws/2")) "ua")
          "\x01").1.WS2RootURL = none) :=
  ⟨rfl, C3_theorem _ _ _ rfl⟩

/-- C4: for every decoded list wrapper with K scored entries, the flattened response's
entity sequence is exactly the K entities in received order, and the score map has
exactly as many bindings as there are distinct entity values in that sequence. -/
theorem C4_theorem (E : Type) [DecidableEq E] (w : ListWrapper E) :
    (searchResponseOf w).entities = w.entries.map (fun v => v.entity) ∧
    (searchResponseOf w).entities.length = w.entries.length ∧
    scoreMapSize (searchResponseOf w).Scores =
      (w.entries.map (fun v => v.entity)).toFinset.card := by
  refine ⟨?_, ?_, ?_⟩
  · simp [searchResponseOf, flattenEntries_eq]
  · simp [searchResponseOf, flattenEntries_eq]
  · simp only [searchResponseOf, flattenEntries_eq, scoreMapSize]
    exact scoreMapSize_insertAll_nil w.entries

/-- C5: when an entity value occurs more than once among the scored entries, the
entity sequence keeps every occurrence (it is the full mapped entry list), while the
score map answers with the score of the LAST entry carrying that entity. -/
theorem C5_theorem (E : Type) [DecidableEq E] (w : ListWrapper E) (a : E)
    (hdup : 1 < (w.entries.map (fun v => v.entity)).count a) :
    (searchResponseOf w).entities = w.entries.map (fun v => v.entity) ∧
    scoreMapLookup (searchResponseOf w).Scores a =
      (w.entries.reverse.find? (fun v => v.entity == a)).map (fun v => v.score) := by
  refine ⟨?_, ?_⟩
  · simp [searchResponseOf, flattenEntries_eq]
  · simp only [searchResponseOf]
    exact scoreMapLookup_flatten w.entries a

/-- C5, witness: a wrapper listing the same artist twice (scores 90 then 70): the
sequence keeps both occurrences and the map answers 70, the last score seen. -/
theorem C5_witness :
    (1 < ((ListWrapper.mk (WS2ListResponse.mk 2 0)
            [ScoredEntity.mk (Artist.mk "1" "X") 90, ScoredEntity.mk (Artist.mk "1" "X") 70]).entries.map
          (fun v => v.entity)).count (Artist.mk "1" "X")) ∧
    ((searchResponseOf (ListWrapper.mk (WS2ListResponse.mk 2 0)
            [ScoredEntity.mk (Artist.mk "1" "X") 90,
             ScoredEntity.mk (Artist.mk "1" "X") 70])).entities =
        (ListWrapper.mk (WS2ListResponse.mk 2 0)
            [ScoredEntity.mk (Artist.mk "1" "X") 90,
             ScoredEntity.mk (Artist.mk "1" "X") 70]).entries.map (fun v => v.entity) ∧
      scoreMapLookup (searchResponseOf (ListWrapper.mk (WS2ListResponse.mk 2 0)
            [ScoredEntity.mk (Artist.mk "1" "X") 90,
             ScoredEntity.mk (Artist.mk "1" "X") 70])).Scores (Artist.mk "1" "X") =
        ((ListWrapper.mk (WS2ListResponse.mk 2 0)
            [ScoredEntity.mk (Artist.mk "1" "X") 90,
             ScoredEntity.mk (Artist.mk "1" "X") 70]).entries.reverse.find?
          (fun v => v.entity == Artist.mk "1" "X")).map (fun v => v.score)) :=
  ⟨by decide, C5_theorem Artist _ _ (by decide)⟩

/-- C6 (round-trip): for every entity that appears exactly once among the scored
entries, looking it up in the flattened response's score map returns exactly the
score it was paired with in the wrapper. -/
theorem C6_theorem (E : Type) [DecidableEq E] (w : ListWrapper E) (v : ScoredEntity E)
    (hv : v ∈ w.entries)
    (h1 : (w.entries.map (fun u => u.entity)).count v.entity = 1) :
    scoreMapLookup (searchResponseOf w).Scores v.entity = some v.score := by
  simp only [searchResponseOf]
  rw [scoreMapLookup_flatten]
  have hcount : w.entries.reverse.countP (fun u => u.entity == v.entity) = 1 := by
    rw [List.countP_reverse]
    rw [List.count_eq_countP, List.countP_map] at h1
    simpa [Function.comp] using h1
  rw [find?_eq_of_countP_eq_one w.entries.reverse v hcount
        (List.mem_reverse.mpr hv) (by simp)]
  rfl

/-- C6, witness: a wrapper with two distinct artists; the second appears exactly once
and its score 70 is recovered from the map. -/
theorem C6_witness :
    (ScoredEntity.mk (Artist.mk "2" "Y") 70 ∈ (ListWrapper.mk (WS2ListResponse.mk 2 0)
        [ScoredEntity.mk (Artist.mk "1" "X") 90,
         ScoredEntity.mk (Artist.mk "2" "Y") 70]).entries) ∧
    ((ListWrapper.mk (WS2ListResponse.mk 2 0)
        [ScoredEntity.mk (Artist.mk "1" "X") 90,
         ScoredEntity.mk (Artist.mk "2" "Y") 70]).entries.map (fun u => u.entity)).count
      (ScoredEntity.mk (Artist.mk "2" "Y") 70).entity = 1 ∧
    scoreMapLookup (searchResponseOf (ListWrapper.mk (WS2ListResponse.mk 2 0)
        [ScoredEntity.mk (Artist.mk "1" "X") 90,
         ScoredEntity.mk (Artist.mk "2" "Y") 70])).Scores
      (ScoredEntity.mk (Artist.mk "2" "Y") 70).entity =
      some (ScoredEntity.mk (Artist.mk "2" "Y") 70).score :=
  ⟨by decide, by decide, C6_theorem Artist _ _ (by decide) (by decide)⟩

/-- C7, counterexample: constructing a client with app `testapp`, version `1.0` and
contact `test@example.com` does NOT produce the identification string
`testapp/1.0 ( test@example.com )` claimed by the spec -- the code appends a trailing
blank after the closing parenthesis. -/
theorem C7_counterexample :
    ¬ ((NewWS2Client "https://musicbrainz.org/ws/2" "testapp" "1.0"
          "test@example.com").userAgentHeader = "testapp/1.0 ( test@example.com )") := by
  decide

/-- C7 (amended): for all appName, version and contact strings, construction and
`SetClientInfo` both build the identification string as
`<appName>/<version> ( <contact> ) ` -- the spec's format followed by one trailing
blank -- and `SetClientInfo` always succeeds (it is a total update returning no
error). -/
theorem C7_theorem (c : WS2Client) (rooturl appname version contact : String) :
    (NewWS2Client rooturl appname version contact).userAgentHeader =
      appname ++ "/" ++ version ++ " ( " ++ contact ++ " ) " ∧
    (SetClientInfo c appname version contact).userAgentHeader =
      appname ++ "/" ++ version ++ " ( " ++ contact ++ " ) " :=
  ⟨rfl, rfl⟩

/-- C8: for every search term, limit and offset, the three declared-but-unimplemented
search operations return the nil response pointer and no error. -/
theorem C8_theorem (searchTerm : String) (limit offset : Int) :
    SearchFreedb searchTerm limit offset = (none, none) ∧
    SearchRecording searchTerm limit offset = (none, none) ∧
    SearchWork searchTerm limit offset = (none, none) :=
  ⟨rfl, rfl, rfl⟩

/-- C9: a transport failure makes the search method abort the process
(`log.Fatalln`) instead of returning, and consequently no value ever returned by a
search method carries a `TransportFailure` error. -/
theorem C9_theorem (E : Type) [DecidableEq E] :
    (∀ msg : String,
      searchMethod (E := E) (NetOutcome.transportFailure msg) = GoCall.fatal msg) ∧
    (∀ (outcome : NetOutcome E) (rsp : Option (SearchResponse E)) (err : Option GoError),
      searchMethod outcome = GoCall.ret (rsp, err) →
        ∀ msg, err ≠ some (GoError.transportError msg)) := by
  constructor
  · intro msg
    rfl
  · intro outcome rsp err h msg
    cases outcome with
    | transportFailure m => simp [searchMethod, getReqeust] at h
    | response decoded derr =>
        simp only [searchMethod, getReqeust, GoCall.ret.injEq, Prod.mk.injEq] at h
        obtain ⟨h1, h2⟩ := h
        subst h2
        cases derr <;> simp

/-- C9, witness: the transport-failure abort and the no-transport-error conclusion at
concrete inputs. -/
theorem C9_witness :
    searchMethod (E := Artist) (NetOutcome.transportFailure "connection refused") =
      GoCall.fatal "connection refused" ∧
    (some (GoError.decodeError "unexpected EOF") : Option GoError) ≠
      some (GoError.transportError "connection refused") :=
  ⟨(C9_theorem Artist).1 "connection refused",
   (C9_theorem Artist).2
     (NetOutcome.response (ListWrapper.mk (WS2ListResponse.mk 0 0) []) (some "unexpected EOF"))
     (some (searchResponseOf (ListWrapper.mk (WS2ListResponse.mk 0 0) [])))
     (some (GoError.decodeError "unexpected EOF")) rfl "connection refused"⟩

/-- C10: in every response returned by an implemented search method, the key set of
the score map coincides with the set of entity values occurring in the entity
sequence. -/
theorem C10_theorem (E : Type) [DecidableEq E] (outcome : NetOutcome E)
    (rsp : SearchResponse E) (err : Option GoError)
    (h : searchMethod outcome = GoCall.ret (some rsp, err)) :
    ∀ a : E, a ∈ scoreMapKeys rsp.Scores ↔ a ∈ rsp.entities := by
  cases outcome with
  | transportFailure m => simp [searchMethod, getReqeust] at h
  | response decoded derr =>
      simp only [searchMethod, getReqeust, GoCall.ret.injEq, Prod.mk.injEq,
        Option.some.injEq] at h
      obtain ⟨h1, h2⟩ := h
      subst h1
      intro a
      simp only [searchResponseOf, flattenEntries_eq]
      rw [mem_scoreMapKeys_insertAll]
      simp [scoreMapKeys]

/-- C10, witness: the key-set/sequence agreement on a concrete one-artist response. -/
theorem C10_witness :
    Artist.mk "1" "X" ∈ scoreMapKeys (searchResponseOf (ListWrapper.mk (WS2ListResponse.mk 1 0)
        [ScoredEntity.mk (Artist.mk "1" "X") 100])).Scores ↔
      Artist.mk "1" "X" ∈ (searchResponseOf (ListWrapper.mk (WS2ListResponse.mk 1 0)
        [ScoredEntity.mk (Artist.mk "1" "X") 100])).entities :=
  C10_theorem Artist
    (NetOutcome.response (ListWrapper.mk (WS2ListResponse.mk 1 0)
      [ScoredEntity.mk (Artist.mk "1" "X") 100]) none)
    (searchResponseOf (ListWrapper.mk (WS2ListResponse.mk 1 0)
      [ScoredEntity.mk (Artist.mk "1" "X") 100]))
    none rfl (Artist.mk "1" "X")
